import Mathlib

/-!
Shallow embedding of the wombadilo-games core: the game session service
(game controller), its game records, and the presence gateway
(server socket layer).  Definitions mirror the JavaScript source;
the chess rules engine (chess.js) is an external black box and is
modelled as an abstract function parameter.
-/

namespace Wombadilo

abbrev UserId := Nat
abbrev GameId := Nat

/-- Modelled from the spec: the game model file is not part of the sources;
the data model section gives status as one of invited, active, completed,
drawn, resigned.  Statuses are strings in the JavaScript code, so we also
keep the string each constructor denotes. -/
inductive Status
  | invited
  | active
  | completed
  | drawn
  | resigned
  deriving DecidableEq

/-- String denotation of a status, as stored in the document store. -/
def Status.toStr : Status → String
  | .invited => "invited"
  | .active => "active"
  | .completed => "completed"
  | .drawn => "drawn"
  | .resigned => "resigned"

/-- A pending draw offer: offering participant and timestamp
(game.drawOffer = \x7b by, offeredAt \x7d in the controller). -/
structure DrawOffer where
  by_ : UserId
  offeredAt : Nat
  deriving DecidableEq

/-- A game record.  players is the ordered pair from the players array;
turn is optional because it is unset until the invite is accepted. -/
structure Game where
  players : UserId × UserId
  status : Status
  invitedBy : UserId
  turn : Option UserId
  currentPosition : String
  winner : Option UserId
  result : Option String
  drawOffer : Option DrawOffer
  updatedAt : Nat
  deriving DecidableEq

/-- Error outcomes of the controller handlers: 404, 403,
400 "Invalid move", 400 state errors, and 500 (uncaught exception). -/
inductive Err
  | notFound
  | forbidden
  | invalidMove
  | invalidState
  | internal
  deriving DecidableEq

/-- game.players.some(player equals userId): membership in the players pair. -/
def Game.isPlayer (g : Game) (u : UserId) : Bool :=
  g.players.1 == u || g.players.2 == u

/-- players.find(playerId not equal to userId): the first player of the pair
different from u, if any (undefined when both players equal u). -/
def otherPlayer (players : UserId × UserId) (u : UserId) : Option UserId :=
  if players.1 ≠ u then some players.1
  else if players.2 ≠ u then some players.2
  else none

/-- A move request body: the from and to squares. -/
structure Move where
  src : String
  dst : String
  deriving DecidableEq

/-- What the rules engine reports after a successful move: the new
position encoding and the game-over and checkmate flags. -/
structure MoveResult where
  fen : String
  isGameOver : Bool
  isCheckmate : Bool
  deriving DecidableEq

/-- The rules engine as a black box: given the current position and a move,
it either rejects the move (none, the chess.move call throws) or returns
the new position with the terminal flags. -/
abbrev Engine := String → Move → Option MoveResult

/-- The makeMove handler on a found game.  Turn check first (403 when the
caller is not the turn owner; a game with no turn set crashes the handler,
surfacing as a 500), then the rules engine; on success the position is
updated, the turn flips to the other player, and a game-over verdict sets
status to completed, with winner set to the mover exactly on checkmate.
No status check is performed. -/
def makeMove (engine : Engine) (game : Game) (userId : UserId) (mv : Move) :
    Except Err Game :=
  match game.turn with
  | none => .error .internal
  | some t =>
    if t ≠ userId then
      .error .forbidden
    else
      match engine game.currentPosition mv with
      | none => .error .invalidMove
      | some r =>
        let g1 := { game with currentPosition := r.fen,
                              turn := otherPlayer game.players userId }
        let g2 :=
          if r.isGameOver then
            if r.isCheckmate then
              { g1 with status := .completed, winner := some userId }
            else
              { g1 with status := .completed }
          else g1
        .ok g2

/-- The persisted state of a game after a handler runs: the handler's saved
record on success, the untouched stored record on an error return. -/
def persisted (game : Game) (r : Except Err Game) : Game :=
  match r with
  | .ok g => g
  | .error _ => game

/-- Ordering used by getGames: most recently updated first. -/
def gameOrder (a b : Game) : Prop := b.updatedAt ≤ a.updatedAt

instance : DecidableRel gameOrder := fun a b =>
  inferInstanceAs (Decidable (b.updatedAt ≤ a.updatedAt))

instance : IsTotal Game gameOrder := ⟨fun a b => Nat.le_total b.updatedAt a.updatedAt⟩

instance : IsTrans Game gameOrder := ⟨fun _ _ _ h1 h2 => Nat.le_trans h2 h1⟩

/-- The getGames handler: the user's games whose status string is in
the list of "active" and "pending", sorted by updatedAt descending. -/
def getGames (games : List Game) (userId : UserId) : List Game :=
  List.insertionSort gameOrder
    (games.filter fun g =>
      g.isPlayer userId && (g.status.toStr == "active" || g.status.toStr == "pending"))

/-- The offerDraw handler on a found game: participant check, then an
active-status check, then the draw offer is recorded. -/
def offerDraw (game : Game) (userId : UserId) (now : Nat) : Except Err Game :=
  if !(game.isPlayer userId) then .error .forbidden
  else if game.status ≠ .active then .error .invalidState
  else .ok { game with drawOffer := some ⟨userId, now⟩ }

/-- The respondToDrawOffer handler on a found game: requires a pending
draw offer, forbids the offerer from answering it, on accept sets status
drawn and result draw, and clears the offer in every case.  No participant
check and no status check are performed. -/
def respondToDrawOffer (game : Game) (userId : UserId) (accept : Bool) :
    Except Err Game :=
  match game.drawOffer with
  | none => .error .invalidState
  | some off =>
    if off.by_ == userId then .error .forbidden
    else
      let g1 :=
        if accept then { game with status := .drawn, result := some "draw" }
        else game
      .ok { g1 with drawOffer := none }

/-- The resign handler on a found game: participant check, active-status
check, then status resigned, result resignation, winner set to the first
player different from the caller. -/
def resign (game : Game) (userId : UserId) : Except Err Game :=
  if !(game.isPlayer userId) then .error .forbidden
  else if game.status ≠ .active then .error .invalidState
  else .ok { game with status := .resigned,
                       result := some "resignation",
                       winner := otherPlayer game.players userId }

/-- The acceptGameInvite handler on a found game: the caller must be a
player other than the inviter; then status is set to active and the turn
to the inviter.  No check that the game is still in status invited. -/
def acceptGameInvite (game : Game) (userId : UserId) : Except Err Game :=
  if !(game.isPlayer userId) || game.invitedBy == userId then .error .forbidden
  else .ok { game with status := .active, turn := some game.invitedBy }

/-- A store of games keyed by identifier, for the handlers that look a
game up or delete it. -/
abbrev Store := List (GameId × Game)

/-- Game.findById over the store. -/
def findGame (store : Store) (gid : GameId) : Option Game :=
  (store.find? fun p => p.1 == gid).map (·.2)

/-- The declineGameInvite handler: 404 when the game is missing, the same
authorization check as acceptGameInvite, then the record is deleted.
No check on the game's status. -/
def declineGameInvite (store : Store) (gid : GameId) (userId : UserId) :
    Except Err Store :=
  match findGame store gid with
  | none => .error .notFound
  | some game =>
    if !(game.isPlayer userId) || game.invitedBy == userId then .error .forbidden
    else .ok (store.filter fun p => !(p.1 == gid))

/-! Presence gateway (socket.js).  A connection handler captures the
handshake's userId; connect stores userId to socket in userSocketMap
(when a userId was supplied) and broadcasts the map's keys; disconnect
deletes the captured userId's entry, whatever it now points at, and
rebroadcasts the keys. -/

abbrev SocketId := Nat

/-- A live socket session with the userId captured at connection time. -/
structure Conn where
  sid : SocketId
  uid : Option UserId
  deriving DecidableEq

/-- Gateway state: the connected sessions and the userSocketMap object
(at most one entry per user key, as a JavaScript object). -/
structure Presence where
  conns : List Conn
  userSocketMap : List (UserId × SocketId)
  deriving DecidableEq

/-- Object assignment userSocketMap[u] = s: overwrite the existing entry
for the key, or append a new one. -/
def mapSet (m : List (UserId × SocketId)) (u : UserId) (s : SocketId) :
    List (UserId × SocketId) :=
  if m.any (fun p => p.1 == u) then
    m.map fun p => if p.1 == u then (u, s) else p
  else m ++ [(u, s)]

/-- Object deletion: delete userSocketMap[u]. -/
def mapDelete (m : List (UserId × SocketId)) (u : UserId) :
    List (UserId × SocketId) :=
  m.filter fun p => !(p.1 == u)

/-- Object.keys(userSocketMap): the broadcast online-user list. -/
def onlineKeys (m : List (UserId × SocketId)) : List UserId := m.map (·.1)

/-- Connection-level events processed by the gateway. -/
inductive PresenceEvent
  | connect (sid : SocketId) (uid : Option UserId)
  | disconnect (sid : SocketId)

/-- One gateway step: the new state and the broadcast list it emits, if
any.  On connect the mapping is registered when a userId was supplied; on
disconnect the handler deletes the entry for the userId captured at that
socket's connection, even when the map entry meanwhile points to a newer
socket of the same user. -/
def step (st : Presence) : PresenceEvent → Presence × Option (List UserId)
  | .connect sid uid =>
    let m :=
      match uid with
      | some u => mapSet st.userSocketMap u sid
      | none => st.userSocketMap
    (⟨st.conns ++ [⟨sid, uid⟩], m⟩, some (onlineKeys m))
  | .disconnect sid =>
    match st.conns.find? (fun c => c.sid == sid) with
    | none => (st, none)
    | some c =>
      let m :=
        match c.uid with
        | some u => mapDelete st.userSocketMap u
        | none => st.userSocketMap
      (⟨st.conns.filter (fun c2 => !(c2.sid == sid)), m⟩, some (onlineKeys m))

/-- Run a sequence of gateway events from a state, returning the final
state and the last broadcast, if any. -/
def run (init : Presence) (evts : List PresenceEvent) :
    Presence × Option (List UserId) :=
  evts.foldl (fun acc e => step acc.1 e) (init, none)

/-- The user identifiers that currently have a connected session. -/
def connectedUsers (st : Presence) : List UserId :=
  st.conns.filterMap (·.uid)


/-! Helper lemmas shared by several theorems. -/

/-- Characterization of isPlayer as membership in the pair. -/
theorem isPlayer_eq_true_iff (g : Game) (u : UserId) :
    g.isPlayer u = true ↔ g.players.1 = u ∨ g.players.2 = u := by
  simp [Game.isPlayer]

/-- For a pair of two distinct players containing u, the first player
different from u is the other member of the pair. -/
theorem otherPlayer_of_mem (a b u : UserId) (hab : a ≠ b) (hmem : u = a ∨ u = b) :
    otherPlayer (a, b) u = some (if u = a then b else a) := by
  rcases hmem with rfl | rfl
  · simp [otherPlayer, Ne.symm hab]
  · simp [otherPlayer, hab, Ne.symm hab]

/-! Claims. -/

/-- Completed game used to exercise acceptGameInvite on a terminal status. -/
def gC1a : Game :=
  ⟨(1, 2), .completed, 1, some 2, "pos0", some 1, none, none, 0⟩

/-- Resigned game used to exercise makeMove on a terminal status. -/
def gC1b : Game :=
  ⟨(1, 2), .resigned, 1, some 1, "pos0", some 2, some "resignation", none, 0⟩

/-- Engine instance for the resigned-game move: the position still has the
legal move pos0 to pos1 and the game is not over by the rules. -/
def engC1 : Engine := fun _ _ => some ⟨"pos1", false, false⟩

/-- C1: terminal statuses are not final in the code.  acceptGameInvite has
no status check, so accepting an old invite on a completed game moves it
back to active; and makeMove has no status check, so the turn owner of a
resigned game still mutates its position and turn. -/
theorem C1_terminal_status_not_final :
    gC1a.status = .completed ∧
    acceptGameInvite gC1a 2 = .ok { gC1a with status := .active, turn := some 1 } ∧
    gC1b.status = .resigned ∧
    makeMove engC1 gC1b 1 ⟨"e2", "e4"⟩ =
      .ok { gC1b with currentPosition := "pos1", turn := some 2 } :=
  ⟨rfl, rfl, rfl, rfl⟩

/-- Event trace for the presence gateway: user 7 connects on socket 1,
reconnects on socket 2, then socket 1's disconnect is processed. -/
def evC8 : List PresenceEvent :=
  [.connect 1 (some 7), .connect 2 (some 7), .disconnect 1]

/-- C8: the broadcast after the stale disconnect is empty although user 7
still has a connected session, because the disconnect handler deletes the
map entry for its captured userId even though that entry now points at the
newer socket. -/
theorem C8_presence_list_misses_connected_user :
    (run ⟨[], []⟩ evC8).2 = some [] ∧
    connectedUsers (run ⟨[], []⟩ evC8).1 = [7] :=
  ⟨rfl, rfl⟩

/-- C9: respondToDrawOffer checks only that a draw offer is pending and
that the responder is not the offerer; any other user, participant or not,
can accept and thereby set the game drawn. -/
theorem C9_respond_needs_no_participant (game : Game) (u : UserId) (off : DrawOffer)
    (hoff : game.drawOffer = some off) (hne : off.by_ ≠ u) :
    ∃ g', respondToDrawOffer game u true = .ok g' ∧
      g'.status = .drawn ∧ g'.result = some "draw" := by
  have h : respondToDrawOffer game u true =
      .ok { { game with status := .drawn, result := some "draw" } with drawOffer := none } := by
    simp [respondToDrawOffer, hoff, hne]
  exact ⟨_, h, rfl, rfl⟩

/-- Game with a pending draw offer by player 1; players are 1 and 2. -/
def gC9 : Game :=
  ⟨(1, 2), .active, 1, some 2, "pos0", none, none, some ⟨1, 3⟩, 0⟩

/-- C9 witness: user 99 is not a participant of gC9 yet accepts the offer. -/
theorem C9_witness :
    ∃ g', respondToDrawOffer gC9 99 true = .ok g' ∧
      g'.status = .drawn ∧ g'.result = some "draw" :=
  C9_respond_needs_no_participant gC9 99 ⟨1, 3⟩ rfl (by decide)

/-- C10: declineGameInvite checks only that the caller is a player other
than the inviter; whatever the game's status, the record is deleted. -/
theorem C10_decline_deletes_regardless_of_status (store : Store) (gid : GameId)
    (game : Game) (u : UserId) (hfind : findGame store gid = some game)
    (hp : game.isPlayer u = true) (hinv : game.invitedBy ≠ u) :
    declineGameInvite store gid u = .ok (store.filter fun p => !(p.1 == gid)) := by
  simp [declineGameInvite, hfind, hp, hinv]

/-- An active (not invited) game, invited by player 1. -/
def gC10 : Game :=
  ⟨(1, 2), .active, 1, some 1, "pos0", none, none, none, 0⟩

/-- C10 witness: the invitee deletes the active game gC10 from the store. -/
theorem C10_witness :
    declineGameInvite [(5, gC10)] 5 2 = .ok [] :=
  C10_decline_deletes_regardless_of_status [(5, gC10)] 5 gC10 2 rfl rfl (by decide)

/-- The status filter of getGames: no status of the data model has the
string "pending", so the filter keeps exactly the active games. -/
theorem statusFilterEq (s : Status) :
    ((s.toStr == "active") || (s.toStr == "pending")) = (s == Status.active) := by
  cases s <;> rfl

/-- C2 (amended): getGames returns a permutation of the user's games whose
status is active, sorted most-recently-updated first; invited games are
never returned because the code filters for the statuses active and
pending, and pending is not a status any game has. -/
theorem C2_getGames_active_sorted (games : List Game) (u : UserId) :
    (getGames games u).Perm
      (games.filter fun g => g.isPlayer u && (g.status == Status.active)) ∧
    List.Sorted gameOrder (getGames games u) := by
  constructor
  · have h : (games.filter fun g =>
        g.isPlayer u && ((g.status.toStr == "active") || (g.status.toStr == "pending"))) =
        games.filter fun g => g.isPlayer u && (g.status == Status.active) := by
      apply List.filter_congr
      intro g _
      rw [statusFilterEq]
    unfold getGames
    rw [h]
    exact List.perm_insertionSort gameOrder _
  · exact List.sorted_insertionSort gameOrder _

/-- An invited game whose participants are players 1 and 2. -/
def gC2 : Game :=
  ⟨(1, 2), .invited, 1, none, "start", none, none, none, 10⟩

/-- C2 counterexample: player 1 has the invited game gC2, yet getGames
omits it, against the claim that invited games are listed. -/
theorem C2_invited_game_omitted :
    gC2.status = Status.invited ∧ gC2.isPlayer 1 = true ∧ getGames [gC2] 1 = [] :=
  ⟨rfl, rfl, rfl⟩

/-- C4: the error paths of makeMove.  A request by anyone other than the
turn owner fails Forbidden, a move the rules engine rejects fails
InvalidMove, and on both paths the persisted game record is unchanged. -/
theorem C4_makeMove_error_paths_atomic (engine : Engine) (game : Game)
    (u : UserId) (mv : Move) :
    (∀ t, game.turn = some t → t ≠ u →
      makeMove engine game u mv = .error .forbidden ∧
      persisted game (makeMove engine game u mv) = game) ∧
    (game.turn = some u → engine game.currentPosition mv = none →
      makeMove engine game u mv = .error .invalidMove ∧
      persisted game (makeMove engine game u mv) = game) := by
  constructor
  · intro t ht hne
    have h : makeMove engine game u mv = .error .forbidden := by
      simp [makeMove, ht, hne]
    exact ⟨h, by rw [h]; rfl⟩
  · intro ht he
    have h : makeMove engine game u mv = .error .invalidMove := by
      simp [makeMove, ht, he]
    exact ⟨h, by rw [h]; rfl⟩

/-- Active game where it is player 1's turn. -/
def gC4 : Game :=
  ⟨(1, 2), .active, 1, some 1, "pos0", none, none, none, 0⟩

/-- Engine instance that rejects every move. -/
def engC4 : Engine := fun _ _ => none

/-- C4 witness: player 2 moves out of turn in gC4 and is refused with the
stored record intact. -/
theorem C4_witness :
    makeMove engC4 gC4 2 ⟨"e2", "e4"⟩ = .error .forbidden ∧
    persisted gC4 (makeMove engC4 gC4 2 ⟨"e2", "e4"⟩) = gC4 :=
  (C4_makeMove_error_paths_atomic engC4 gC4 2 ⟨"e2", "e4"⟩).1 1 rfl (by decide)

/-- C5: respondToDrawOffer fails InvalidState without a pending offer,
fails Forbidden for the offerer, and otherwise clears the offer in every
case, setting status drawn and result draw exactly when the response is an
acceptance, with turn and position untouched and no turn condition. -/
theorem C5_respondToDraw_spec (game : Game) (u : UserId) (accept : Bool) :
    (game.drawOffer = none → respondToDrawOffer game u accept = .error .invalidState) ∧
    (∀ off, game.drawOffer = some off → off.by_ = u →
      respondToDrawOffer game u accept = .error .forbidden) ∧
    (∀ off, game.drawOffer = some off → off.by_ ≠ u →
      ∃ g', respondToDrawOffer game u accept = .ok g' ∧
        g'.drawOffer = none ∧
        g'.status = (if accept then .drawn else game.status) ∧
        g'.result = (if accept then some "draw" else game.result) ∧
        g'.turn = game.turn ∧
        g'.currentPosition = game.currentPosition ∧
        g'.winner = game.winner) := by
  refine ⟨?_, ?_, ?_⟩
  · intro hnone
    simp [respondToDrawOffer, hnone]
  · intro off hoff hby
    simp [respondToDrawOffer, hoff, hby]
  · intro off hoff hne
    cases accept with
    | true =>
      have h : respondToDrawOffer game u true =
          .ok { { game with status := .drawn, result := some "draw" } with
                drawOffer := none } := by
        simp [respondToDrawOffer, hoff, hne]
      exact ⟨_, h, rfl, rfl, rfl, rfl, rfl, rfl⟩
    | false =>
      have h : respondToDrawOffer game u false = .ok { game with drawOffer := none } := by
        simp [respondToDrawOffer, hoff, hne]
      exact ⟨_, h, rfl, rfl, rfl, rfl, rfl, rfl⟩

/-- Active game with a pending draw offer by player 1, player 2 to move. -/
def gC5 : Game :=
  ⟨(1, 2), .active, 1, some 2, "pos0", none, none, some ⟨1, 4⟩, 0⟩

/-- C5 witness: player 2 accepts the offer in gC5; the game becomes drawn
with result draw, the offer is cleared, turn and position stay as stored. -/
theorem C5_witness :
    ∃ g', respondToDrawOffer gC5 2 true = .ok g' ∧
      g'.drawOffer = none ∧
      g'.status = (if true then Status.drawn else gC5.status) ∧
      g'.result = (if true then some "draw" else gC5.result) ∧
      g'.turn = gC5.turn ∧
      g'.currentPosition = gC5.currentPosition ∧
      g'.winner = gC5.winner :=
  (C5_respondToDraw_spec gC5 2 true).2.2 ⟨1, 4⟩ rfl (by decide)

/-- C3: a legal move by the turn owner of an active game stores the rules
engine's new position, hands the turn to the other participant, and on a
game-over verdict completes the game with the mover as winner exactly on
checkmate; otherwise status and winner are untouched. -/
theorem C3_makeMove_success (engine : Engine) (game : Game) (a b u : UserId)
    (mv : Move) (r : MoveResult) (hpl : game.players = (a, b)) (hab : a ≠ b)
    (hmem : u = a ∨ u = b) (hst : game.status = .active) (hw : game.winner = none)
    (ht : game.turn = some u) (he : engine game.currentPosition mv = some r) :
    ∃ g', makeMove engine game u mv = .ok g' ∧
      g'.currentPosition = r.fen ∧
      g'.turn = some (if u = a then b else a) ∧
      (r.isGameOver = true →
        g'.status = .completed ∧ (g'.winner = some u ↔ r.isCheckmate = true)) ∧
      (r.isGameOver = false → g'.status = .active ∧ g'.winner = none) := by
  have hop : otherPlayer game.players u = some (if u = a then b else a) := by
    rw [hpl]
    exact otherPlayer_of_mem a b u hab hmem
  rcases r with ⟨fen, go, cm⟩
  cases go with
  | false =>
    have h : makeMove engine game u mv =
        .ok { game with currentPosition := fen, turn := otherPlayer game.players u } := by
      simp [makeMove, ht, he]
    refine ⟨_, h, rfl, hop, ?_, ?_⟩
    · intro hgo
      simp at hgo
    · intro _
      exact ⟨hst, hw⟩
  | true =>
    cases cm with
    | true =>
      have h : makeMove engine game u mv =
          .ok { game with currentPosition := fen, turn := otherPlayer game.players u,
                          status := .completed, winner := some u } := by
        simp [makeMove, ht, he]
      refine ⟨_, h, rfl, hop, ?_, ?_⟩
      · intro _
        exact ⟨rfl, by simp⟩
      · intro hgo
        simp at hgo
    | false =>
      have h : makeMove engine game u mv =
          .ok { game with currentPosition := fen, turn := otherPlayer game.players u,
                          status := .completed } := by
        simp [makeMove, ht, he]
      refine ⟨_, h, rfl, hop, ?_, ?_⟩
      · intro _
        refine ⟨rfl, ?_⟩
        simp [hw]
      · intro hgo
        simp at hgo

/-- Active game between players 1 and 2, player 1 to move. -/
def gC3 : Game :=
  ⟨(1, 2), .active, 1, some 1, "pos0", none, none, none, 0⟩

/-- Engine instance whose verdict on every move is checkmate at the
position called mate. -/
def engC3 : Engine := fun _ _ => some ⟨"mate", true, true⟩

/-- C3 witness: player 1 delivers checkmate in gC3; the stored game holds
the new position, turn 2, status completed and winner 1. -/
theorem C3_witness :
    ∃ g', makeMove engC3 gC3 1 ⟨"d1", "h5"⟩ = .ok g' ∧
      g'.currentPosition = "mate" ∧
      g'.turn = some 2 ∧
      (true = true → g'.status = Status.completed ∧ (g'.winner = some 1 ↔ true = true)) ∧
      (true = false → g'.status = Status.active ∧ g'.winner = none) :=
  C3_makeMove_success engC3 gC3 1 2 1 ⟨"d1", "h5"⟩ ⟨"mate", true, true⟩
    rfl (by decide) (Or.inl rfl) rfl rfl rfl rfl

/-- C6 (amended): a draw offer can be recorded only on an active game, and
responding to one clears it; but the operations that move a game out of
active status do not clear a pending offer: a game-ending move and a
resignation both leave drawOffer exactly as it was. -/
theorem C6_drawOffer_lifecycle (game : Game) (u : UserId) (now : Nat) :
    (game.isPlayer u = true → game.status ≠ .active →
      offerDraw game u now = .error .invalidState) ∧
    (∀ engine mv g', makeMove engine game u mv = .ok g' →
      g'.drawOffer = game.drawOffer) ∧
    (∀ g', resign game u = .ok g' → g'.drawOffer = game.drawOffer) := by
  refine ⟨?_, ?_, ?_⟩
  · intro hp hst
    simp [offerDraw, hp, hst]
  · intro engine mv g' h
    unfold makeMove at h
    split at h
    · cases h
    · split at h
      · cases h
      · split at h
        · cases h
        · injection h with h2
          subst h2
          split
          · split <;> rfl
          · rfl
  · intro g' h
    unfold resign at h
    split at h
    · cases h
    · split at h
      · cases h
      · injection h with h2
        subst h2
        rfl

/-- Active game with a pending draw offer by player 1, player 1 to move. -/
def gC6 : Game :=
  ⟨(1, 2), .active, 1, some 1, "pos0", none, none, some ⟨1, 5⟩, 0⟩

/-- Engine instance whose verdict on every move is checkmate. -/
def engC6 : Engine := fun _ _ => some ⟨"pEnd", true, true⟩

/-- C6 counterexample: the game-ending move on gC6 completes the game but
leaves the pending draw offer in place, against the claim that every
transition out of active clears it. -/
theorem C6_offer_survives_game_end :
    gC6.status = .active ∧ gC6.drawOffer = some ⟨1, 5⟩ ∧
    (persisted gC6 (makeMove engC6 gC6 1 ⟨"f2", "f3"⟩)).status = .completed ∧
    (persisted gC6 (makeMove engC6 gC6 1 ⟨"f2", "f3"⟩)).drawOffer = some ⟨1, 5⟩ :=
  ⟨rfl, rfl, rfl, rfl⟩

/-- Completed game between players 1 and 2. -/
def gC6w : Game :=
  ⟨(1, 2), .completed, 1, some 2, "pos0", some 1, none, none, 0⟩

/-- C6 witness: a draw offer on the completed game gC6w is refused. -/
theorem C6_witness :
    offerDraw gC6w 1 9 = .error .invalidState :=
  (C6_drawOffer_lifecycle gC6w 1 9).1 rfl (by decide)

/-- C7: resign refuses a non-participant with Forbidden and a non-active
game with InvalidState; otherwise, with no condition on whose turn it is,
it stores status resigned, result resignation, and the winner is the other
participant. -/
theorem C7_resign_spec (game : Game) (a b u : UserId) (hpl : game.players = (a, b)) :
    (game.isPlayer u = false → resign game u = .error .forbidden) ∧
    (game.isPlayer u = true → game.status ≠ .active →
      resign game u = .error .invalidState) ∧
    (game.isPlayer u = true → game.status = .active → a ≠ b →
      resign game u =
        .ok { game with status := .resigned, result := some "resignation",
                        winner := some (if u = a then b else a) }) := by
  refine ⟨?_, ?_, ?_⟩
  · intro hp
    simp [resign, hp]
  · intro hp hst
    simp [resign, hp, hst]
  · intro hp hst hab
    have hmem : u = a ∨ u = b := by
      rcases (isPlayer_eq_true_iff game u).1 hp with h | h
      · rw [hpl] at h
        exact Or.inl h.symm
      · rw [hpl] at h
        exact Or.inr h.symm
    have hop : otherPlayer game.players u = some (if u = a then b else a) := by
      rw [hpl]
      exact otherPlayer_of_mem a b u hab hmem
    simp [resign, hp, hst, hop]

/-- Active game between players 1 and 2, player 1 to move. -/
def gC7 : Game :=
  ⟨(1, 2), .active, 1, some 1, "pos0", none, none, none, 0⟩

/-- C7 witness: player 2 resigns gC7 although it is player 1's turn; the
game is stored resigned with result resignation and winner 1. -/
theorem C7_witness :
    resign gC7 2 =
      .ok { gC7 with status := Status.resigned, result := some "resignation",
                     winner := some 1 } :=
  (C7_resign_spec gC7 1 2 2 rfl).2.2 rfl rfl (by decide)

end Wombadilo
